import Mathlib

/-!
Verification of the Portfolio repository's client-side logic: the project
filter engine (`filteredProjects` in the home page) and the terminal-style
command interpreter (`CLI.tsx`).  JavaScript strings are modelled as Lean
`String`s; the JS string operations used by the code (`toLowerCase`,
`includes`, `trim`, `split(' ')`, `join(' ')`, `charAt(0).toUpperCase() +
slice(1).toLowerCase()`) are given executable models below, with ASCII case
mapping (the data and commands involved are ASCII).
-/

set_option maxHeartbeats 1000000
set_option maxRecDepth 100000

/-- Model of `String.prototype.toLowerCase` (ASCII range), per character. -/
def jsLowerChar (c : Char) : Char := Char.toLower c

/-- Model of `String.prototype.toLowerCase` (ASCII range). -/
def jsLower (s : String) : String := ⟨s.data.map jsLowerChar⟩

/-- Is `pre` a prefix of `l`? (used to model `String.prototype.includes`). -/
def isPrefixL : List Char → List Char → Bool
  | [], _ => true
  | _ :: _, [] => false
  | a :: as, b :: bs => a == b && isPrefixL as bs

/-- Does `hay` contain `needle` as a contiguous run? -/
def containsL (needle : List Char) : List Char → Bool
  | [] => needle.isEmpty
  | c :: rest => isPrefixL needle (c :: rest) || containsL needle rest

/-- Model of `hay.includes(needle)` for JS strings. -/
def jsIncludes (hay needle : String) : Bool := containsL needle.data hay.data

/-- The ECMAScript WhiteSpace / LineTerminator set (common members). -/
def jsWhitespaceChar (c : Char) : Bool :=
  c = ' ' || c = '\t' || c = '\n' || c = '\r' || c = '\x0b' || c = '\x0c' ||
  c.toNat = 0xa0 || c.toNat = 0xfeff

/-- Model of `String.prototype.trim`: drop whitespace from both ends. -/
def trimL (l : List Char) : List Char :=
  ((l.dropWhile jsWhitespaceChar).reverse.dropWhile jsWhitespaceChar).reverse

/-- Model of `s.trim()` for JS strings. -/
def jsTrim (s : String) : String := ⟨trimL s.data⟩

/-- Model of `s.split(sep)` for a single-character separator: splits at every
occurrence of `sep`, keeping empty pieces (as JS does). -/
def splitCharL (sep : Char) : List Char → List (List Char)
  | [] => [[]]
  | c :: rest =>
    let r := splitCharL sep rest
    if c = sep then [] :: r
    else
      match r with
      | [] => [[c]]
      | h :: t => (c :: h) :: t

/-- Model of `s.split(' ')` (the tokenizer the interpreter actually uses). -/
def splitOnSpace (s : String) : List String := (splitCharL ' ' s.data).map (⟨·⟩)

/-- Model of `args.join(' ')`. -/
def joinSpace (ls : List String) : String := String.intercalate " " ls

/-- Model of `s.charAt(0).toUpperCase() + s.slice(1).toLowerCase()` (the
`filter` command's domain-token normalization). -/
def capFirst (s : String) : String :=
  match s.data with
  | [] => ""
  | c :: rest => ⟨Char.toUpper c :: rest.map jsLowerChar⟩

/-!
Data model, translated from `src/types/project.ts`.  `stats` and `media`
hold only display metadata; they are carried for completeness.
-/

/-- Project statistics (`ProjectStats` in `src/types/project.ts`). -/
structure ProjectStats where
  stars : Option Nat := none
  contributors : Option Nat := none
  downloads : Option String := none
  forks : Option Nat := none
deriving DecidableEq

/-- Project media assets (`ProjectMedia` in `src/types/project.ts`). -/
structure ProjectMedia where
  thumbnail : Option String := none
  screenshots : Option (List String) := none
  video : Option String := none
  liveDemo : Option String := none
deriving DecidableEq

/-- Project external links (`ProjectLinks` in `src/types/project.ts`). -/
structure ProjectLinks where
  github : Option String := none
  docs : Option String := none
  article : Option String := none
  website : Option String := none
  pypi : Option String := none
deriving DecidableEq

/-- The `type` field is `ProjectType | ProjectType[]` in TypeScript: either a
single value or an array of values. -/
inductive TypeField where
  | single (t : String)
  | multi (ts : List String)
deriving DecidableEq

/-- `Array.isArray(project.type) ? project.type : [project.type]` — the
normalization both the filter engine and the details renderer perform. -/
def normTypes : TypeField → List String
  | .single t => [t]
  | .multi ts => ts

/-- A project record (`Project` in `src/types/project.ts`).  The `domain` and
type values are strings drawn from the fixed enumerations. -/
structure Project where
  id : String
  title : String
  domain : String
  type : TypeField
  description : String
  longDescription : Option String := none
  techStack : List String
  features : Option (List String) := none
  stats : Option ProjectStats := none
  media : Option ProjectMedia := none
  links : ProjectLinks
  featured : Bool := false
deriving DecidableEq

/-!
The static catalog, transcribed from `src/data/projects.ts` (the
`createProject` helper there defaults `type` to `'Open Source'` and
`featured` to `false`, and builds `links` from the URLs provided).
-/

def owlWatch : Project :=
  { id := "owl-watch"
    title := "Owl-Watch"
    domain := "Data Engineering"
    type := .single "Open Source"
    description := "AWS-native data engineering pipeline using Glue, Bedrock, and ML for ingesting, processing, and curating data with PySpark ETL jobs."
    longDescription := some "Owl-Watch is a comprehensive data engineering solution built on AWS infrastructure. It leverages AWS Glue for ETL processing, Amazon Bedrock for ML-powered data curation, and PySpark for scalable data transformations. The pipeline is designed to handle large-scale data ingestion and processing workflows with built-in monitoring and error handling."
    techStack := ["Python", "TypeScript", "AWS CDK", "PySpark", "AWS Glue", "Bedrock"]
    features := some ["Automated ETL pipeline orchestration",
      "ML-powered data curation with Bedrock",
      "Scalable PySpark transformations",
      "Infrastructure as Code with CDK"]
    links := { github := some "https://github.com/TheWinterShadow/Owl-Watch" } }

def lockAndKey : Project :=
  { id := "lock-and-key"
    title := "Lock-And-Key"
    domain := "Security"
    type := .multi ["Open Source", "Published Package"]
    description := "Multi-cloud security scanner analyzing IAM and resource-based policies to identify vulnerabilities and excessive permissions across AWS, Azure, and GCP."
    longDescription := some "Lock-And-Key is a comprehensive security scanning tool that performs deep analysis of IAM policies and resource permissions across major cloud providers. It identifies privilege escalation risks, wildcard permissions, and violations of least privilege principles. The tool provides actionable security insights with detailed reporting and remediation recommendations."
    techStack := ["Python", "AWS SDK", "Azure SDK", "GCP SDK", "Interactive CLI"]
    features := some ["Multi-cloud IAM policy analysis",
      "Privilege escalation detection",
      "Wildcard permission identification",
      "Least privilege violation reporting",
      "Interactive CLI with detailed reports"]
    links := { github := some "https://github.com/TheWinterShadow/Lock-And-Key",
               docs := some "https://thewintershadow.github.io/Lock-And-Key/",
               pypi := some "https://pypi.org/project/lock-and-key/" }
    featured := true }

def horizonSec : Project :=
  { id := "horizonsec"
    title := "HorizonSec Project"
    domain := "Security"
    type := .single "Open Source"
    description := "Modular security toolkit integrating directly into developer workflows with GAIA (orchestration), DEMETER (infrastructure scanning), HADES (endpoint security), and ARTEMIS (static analysis)."
    longDescription := some "HorizonSec is an open-source security organization focused on building modular security tools that integrate seamlessly into developer workflows. The project includes multiple specialized tools: GAIA for security orchestration, DEMETER for infrastructure scanning, HADES for endpoint security monitoring, and ARTEMIS for static code analysis. Together, these tools provide comprehensive security coverage throughout the development lifecycle."
    techStack := ["Python", "TypeScript", "Security Tools", "CI/CD Integration"]
    features := some ["Modular security toolkit architecture",
      "Developer workflow integration",
      "Multi-tool orchestration",
      "Comprehensive security coverage"]
    links := { github := some "https://github.com/HorizonSec",
               website := some "https://github.com/HorizonSec/horizon-website" }
    featured := true }

def theDataPacket : Project :=
  { id := "the-data-packet"
    title := "The-Data-Packet"
    domain := "Research"
    type := .single "Research"
    description := "Research project exploring data processing and analysis techniques."
    techStack := ["Python", "Data Analysis"]
    links := { github := some "https://github.com/TheWinterShadow/The-Data-Packet" } }

def thoughtSmith : Project :=
  { id := "thought-smith"
    title := "thought-smith"
    domain := "Web Development"
    type := .single "Open Source"
    description := "Web development project showcasing modern frontend techniques and best practices."
    techStack := ["TypeScript", "React", "Next.js"]
    links := { github := some "https://github.com/TheWinterShadow/thought-smith" } }

def theDeploymentForge : Project :=
  { id := "the-deployment-forge"
    title := "The-Deployment-Forge"
    domain := "Infrastructure"
    type := .single "Open Source"
    description := "Infrastructure automation and deployment tooling for modern cloud environments."
    techStack := ["Python", "Infrastructure as Code", "CI/CD"]
    links := { github := some "https://github.com/TheWinterShadow/The-Deployment-Forge" } }

def whompingWillow : Project :=
  { id := "whomping-willow"
    title := "Whomping-Willow"
    domain := "Web Development"
    type := .single "Open Source"
    description := "Web development project with modern UI/UX patterns."
    techStack := ["JavaScript", "React"]
    links := { github := some "https://github.com/TheWinterShadow/Whomping-Willow" } }

def hogwarts : Project :=
  { id := "hogwarts"
    title := "Hogwarts"
    domain := "Web Development"
    type := .single "Open Source"
    description := "Web development project demonstrating full-stack capabilities."
    techStack := ["TypeScript", "React", "Node.js"]
    links := { github := some "https://github.com/TheWinterShadow/Hogwarts" } }

def netSecure : Project :=
  { id := "netsecure"
    title := "NetSecure"
    domain := "Design"
    type := .multi ["Open Source"]
    description := "Security-focused design concept showcasing modern UI/UX for security applications."
    techStack := ["Design", "UI/UX"]
    media := some { thumbnail := some "https://www.elijahwinter.com/img/netsecure.png" }
    links := {} }

/-- The catalog, in source order (`projects` in `src/data/projects.ts`). -/
def projects : List Project :=
  [owlWatch, lockAndKey, horizonSec, theDataPacket, thoughtSmith,
   theDeploymentForge, whompingWillow, hogwarts, netSecure]

/-!
Project Filter Engine, translated from the `filteredProjects` memo in the
home page (`src/unnamed/part_000` area, symbol `filteredProjects`).  The
source is `projects.filter(predicate)` where the predicate early-returns
`false` on each failed constraint; the early-return chain is rendered as a
conjunction of guards.  JS `if (searchQuery)` tests string truthiness, i.e.
non-emptiness; `Set`s of selected domains / types are modelled as lists with
membership via `contains`.
-/

/-- The free-text constraint of the filter predicate: case-insensitive
substring of title, description, or some techStack entry. -/
def matchesQuery (query : String) (p : Project) : Bool :=
  jsIncludes (jsLower p.title) query ||
  jsIncludes (jsLower p.description) query ||
  p.techStack.any (fun tech => jsIncludes (jsLower tech) query)

/-- The per-project predicate of `filteredProjects`. -/
def projectPred (searchQuery : String) (selectedDomains selectedTypes : List String)
    (p : Project) : Bool :=
  (if searchQuery == "" then true else matchesQuery (jsLower searchQuery) p) &&
  (if selectedDomains.isEmpty then true else selectedDomains.contains p.domain) &&
  (if selectedTypes.isEmpty then true
   else (normTypes p.type).any (fun t => selectedTypes.contains t))

/-- `catalog.filter(...)` — the filter engine over an arbitrary catalog. -/
def filterEngine (catalog : List Project) (searchQuery : String)
    (selectedDomains selectedTypes : List String) : List Project :=
  catalog.filter (projectPred searchQuery selectedDomains selectedTypes)

/-- The home page's `filteredProjects`, which closes over the static catalog. -/
def filteredProjects (searchQuery : String)
    (selectedDomains selectedTypes : List String) : List Project :=
  filterEngine projects searchQuery selectedDomains selectedTypes

/-!
Command Interpreter, translated from `src/components/CLI.tsx`.  Rendered JSX
outputs are modelled by the `Output` inductive; messages that are plain text
in the source carry their literal text.
-/

/-- A rendered terminal output (the JSX the component produces). -/
inductive Output where
  | welcome : Output
  | helpText : Output
  | projectList (title : String) (ps : List Project) : Output
  | projectDetails (p : Project) : Output
  | errorText (msg : String) : Output
  | noticeText (msg : String) : Output
  | openingMsg (title : String) : Output
deriving DecidableEq

/-- One entry of the terminal history (`CommandHistory` in the source; the
timestamp is display-only and omitted). -/
structure HistEntry where
  command : String
  output : Output
deriving DecidableEq

/-- `findProject` from `CLI.tsx`: one pass over the catalog, keeping the
first project whose `id` equals the query exactly or whose title contains
the query case-insensitively. -/
def findProject (query : String) : Option Project :=
  projects.find? (fun p => p.id == query || jsIncludes (jsLower p.title) (jsLower query))

/-- `COMMANDS.cat.execute`. -/
def catExecute (args : List String) : Output :=
  if args.headD "" == "" then .errorText "Usage: cat <project-id>"
  else
    match findProject (args.headD "") with
    | none => .errorText "Project not found. Use \x27ls\x27 to see available projects."
    | some p => .projectDetails p

/-- `COMMANDS.filter.execute`. -/
def filterCmdExecute (args : List String) : Output :=
  if args.headD "" == "" then .errorText "Usage: filter <domain>"
  else
    let domain := capFirst (args.headD "")
    let filtered := projects.filter (fun p => jsLower p.domain == jsLower domain)
    if filtered.isEmpty then .noticeText ("No projects found for domain: " ++ domain)
    else .projectList ("Projects in " ++ domain) filtered

/-- `COMMANDS.search.execute`. -/
def searchExecute (args : List String) : Output :=
  if args.headD "" == "" then .errorText "Usage: search <query>"
  else
    let query := jsLower (joinSpace args)
    let filtered := projects.filter (fun p =>
      jsIncludes (jsLower p.title) query ||
      jsIncludes (jsLower p.description) query ||
      p.techStack.any (fun tech => jsIncludes (jsLower tech) query))
    if filtered.isEmpty then .noticeText ("No projects found matching: " ++ query)
    else .projectList "Search results" filtered

/-- `COMMANDS.open.execute` (the fallback handler; `executeCommand`
special-cases `open` with an argument before reaching it). -/
def openExecute (args : List String) : Output :=
  if args.headD "" == "" then .errorText "Usage: open <project-id>"
  else
    match findProject (args.headD "") with
    | none => .errorText "Project not found. Use \x27ls\x27 to see available projects."
    | some p => .openingMsg p.title

/-- The own entries of the `COMMANDS` object, with their handlers already
applied: `none` means the name is not an own property of the table;
`some none` means the handler returned `null` (no output entry).  A real
JS property access also hits members inherited from `Object.prototype`;
that part of the lookup is modelled by `commandsLookup` below. -/
def runCommand (cmd : String) (args : List String) : Option (Option Output) :=
  if cmd == "help" then some (some .helpText)
  else if cmd == "ls" then some (some (.projectList "Projects" projects))
  else if cmd == "cat" then some (some (catExecute args))
  else if cmd == "filter" then some (some (filterCmdExecute args))
  else if cmd == "search" then some (some (searchExecute args))
  else if cmd == "clear" then some none
  else if cmd == "exit" then some none
  else if cmd == "open" then some (some (openExecute args))
  else none

/-- The observable result of one `executeCommand` call: the new history, the
arguments of `onNavigateToProject` calls made, and whether `onClose` was
called. -/
structure ExecResult where
  history : List HistEntry
  navCalls : List String
  closed : Bool
deriving DecidableEq

/-- `executeCommand` from `CLI.tsx`, on every input whose lowercased command
token is not a member name inherited from `Object.prototype`: on those
inputs the source never throws and this total function is its exact model
(`executeCommandJS_agrees` below).  The two inherited names reachable after
`toLowerCase` (`constructor`, `__proto__`) make the source throw a
`TypeError`; the full fallible model is `executeCommandJS` below.
`hasNav` records whether the optional `onNavigateToProject` callback was
provided. -/
def executeCommand (hasNav : Bool) (history : List HistEntry) (input : String) :
    ExecResult :=
  let trimmed := jsTrim input
  if trimmed == "" then ⟨history, [], false⟩
  else
    let parts := splitOnSpace trimmed
    let command := parts.headD ""
    let args := parts.tail
    let cmd := jsLower command
    if cmd == "exit" then ⟨history, [], true⟩
    else if cmd == "clear" then ⟨[], [], false⟩
    else if cmd == "open" && args.headD "" != "" then
      match findProject (args.headD "") with
      | some p =>
          ⟨history ++ [⟨trimmed, .openingMsg p.title⟩],
           if hasNav then [p.id] else [], false⟩
      | none => ⟨history ++ [⟨trimmed, .errorText "Project not found"⟩], [], false⟩
    else
      match runCommand cmd args with
      | none =>
          ⟨history ++ [⟨trimmed, .errorText ("Command not found: " ++ cmd ++
            ". Type \x27help\x27 for available commands.")⟩], [], false⟩
      | some none => ⟨history, [], false⟩
      | some (some out) => ⟨history ++ [⟨trimmed, out⟩], [], false⟩

/-- What the JS property access `COMMANDS[cmd]` can yield: one of the eight
own handlers, a truthy member inherited from `Object.prototype` (which has
no `execute`, so calling `commandHandler.execute(args)` throws a
`TypeError`), or `undefined`. -/
inductive CommandsLookup where
  | ownHandler (execute : List String → Option Output) : CommandsLookup
  | inheritedMember : CommandsLookup
  | undefinedValue : CommandsLookup

/-- The property access `COMMANDS[cmd]`, prototype chain included.  The own
keys shadow the prototype; of the `Object.prototype` member names only
`constructor` and `__proto__` are all-lowercase and hence reachable after
the parser's `toLowerCase` (names such as `hasOwnProperty` or `toString`
contain capitals and miss). -/
def commandsLookup (cmd : String) : CommandsLookup :=
  if cmd == "help" then .ownHandler (fun _ => some .helpText)
  else if cmd == "ls" then .ownHandler (fun _ => some (.projectList "Projects" projects))
  else if cmd == "cat" then .ownHandler (fun args => some (catExecute args))
  else if cmd == "filter" then .ownHandler (fun args => some (filterCmdExecute args))
  else if cmd == "search" then .ownHandler (fun args => some (searchExecute args))
  else if cmd == "clear" then .ownHandler (fun _ => none)
  else if cmd == "exit" then .ownHandler (fun _ => none)
  else if cmd == "open" then .ownHandler (fun args => some (openExecute args))
  else if cmd == "constructor" || cmd == "__proto__" then .inheritedMember
  else .undefinedValue

/-- The full fallible model of `executeCommand` from `CLI.tsx`:
`.error "TypeError"` is the exception the source raises when the dispatch
hits an inherited `Object.prototype` member (the `if (!commandHandler)`
guard sees a truthy value and `commandHandler.execute` is `undefined`);
nothing is appended and no callback runs on that path. -/
def executeCommandJS (hasNav : Bool) (history : List HistEntry) (input : String) :
    Except String ExecResult :=
  let trimmed := jsTrim input
  if trimmed == "" then .ok ⟨history, [], false⟩
  else
    let parts := splitOnSpace trimmed
    let command := parts.headD ""
    let args := parts.tail
    let cmd := jsLower command
    if cmd == "exit" then .ok ⟨history, [], true⟩
    else if cmd == "clear" then .ok ⟨[], [], false⟩
    else if cmd == "open" && args.headD "" != "" then
      match findProject (args.headD "") with
      | some p =>
          .ok ⟨history ++ [⟨trimmed, .openingMsg p.title⟩],
            if hasNav then [p.id] else [], false⟩
      | none => .ok ⟨history ++ [⟨trimmed, .errorText "Project not found"⟩], [], false⟩
    else
      match commandsLookup cmd with
      | .undefinedValue =>
          .ok ⟨history ++ [⟨trimmed, .errorText ("Command not found: " ++ cmd ++
            ". Type \x27help\x27 for available commands.")⟩], [], false⟩
      | .inheritedMember => .error "TypeError"
      | .ownHandler execute =>
          match execute args with
          | none => .ok ⟨history, [], false⟩
          | some out => .ok ⟨history ++ [⟨trimmed, out⟩], [], false⟩

/-!
Keyboard handling (`handleKeyDown` in `CLI.tsx`): Enter executes the input
buffer, ArrowUp / ArrowDown move the history-recall cursor, Escape closes.
`commandIndex` is the source's integer cursor with `-1` as the
"not browsing history" sentinel.
-/

/-- The keys `handleKeyDown` reacts to. -/
inductive TermKey where
  | enter : TermKey
  | arrowUp : TermKey
  | arrowDown : TermKey
  | escape : TermKey
deriving DecidableEq

/-- The component state relevant to keyboard handling, together with the
accumulated external effects (navigation and close callbacks). -/
structure TermState where
  commandHistory : List HistEntry
  currentInput : String
  commandIndex : Int
  navCalls : List String
  closed : Bool
deriving DecidableEq

/-- `handleKeyDown` from `CLI.tsx`. -/
def handleKey (hasNav : Bool) (s : TermState) (k : TermKey) : TermState :=
  match k with
  | .enter =>
    let r := executeCommand hasNav s.commandHistory s.currentInput
    { commandHistory := r.history, currentInput := "", commandIndex := -1,
      navCalls := s.navCalls ++ r.navCalls, closed := s.closed || r.closed }
  | .arrowUp =>
    if 0 < s.commandHistory.length then
      let newIndex : Int :=
        if s.commandIndex == -1 then (s.commandHistory.length : Int) - 1
        else max 0 (s.commandIndex - 1)
      let recalled := (s.commandHistory.get? newIndex.toNat).map (fun e => e.command)
      { s with commandIndex := newIndex,
               currentInput :=
                 match recalled with
                 | some c => if c != "" && c != "welcome" then c else s.currentInput
                 | none => s.currentInput }
    else s
  | .arrowDown =>
    if 0 ≤ s.commandIndex then
      let newIndex : Int := s.commandIndex + 1
      if (s.commandHistory.length : Int) ≤ newIndex then
        { s with commandIndex := -1, currentInput := "" }
      else
        { s with commandIndex := newIndex,
                 currentInput :=
                   ((s.commandHistory.get? newIndex.toNat).map (fun e => e.command)).getD "" }
    else s
  | .escape => { s with closed := true }

/-- The state a freshly opened session starts in: only the synthetic
`welcome` entry, an empty input buffer, and the cursor not browsing. -/
def initialState : TermState :=
  { commandHistory := [⟨"welcome", .welcome⟩], currentInput := "",
    commandIndex := -1, navCalls := [], closed := false }

/-- Typing a line into the input buffer and pressing Enter. -/
def enterLine (hasNav : Bool) (s : TermState) (line : String) : TermState :=
  handleKey hasNav { s with currentInput := line } .enter

/-!
Specification-side definitions (written from the wording of `spec.md`, to be
compared with the code-side definitions above) and the claim theorems.
-/

/-- The filter predicate as the spec states it: (query empty OR
case-insensitive substring of title, description, or some techStack entry)
AND (domain set empty OR the project's domain a member) AND (type set empty
OR at least one of the project's type values a member). -/
def specFilterPred (query : String) (domains types : List String) (p : Project) : Bool :=
  (query == "" ||
    (jsIncludes (jsLower p.title) (jsLower query) ||
     jsIncludes (jsLower p.description) (jsLower query) ||
     p.techStack.any (fun tech => jsIncludes (jsLower tech) (jsLower query)))) &&
  (domains.isEmpty || domains.contains p.domain) &&
  (types.isEmpty || (normTypes p.type).any (fun t => types.contains t))

/-- Resolution as the spec states it, in two stages: first an exact id
match over the whole catalog, and only if none exists, the first project
whose title contains the query case-insensitively. -/
def resolveStagedSpec (query : String) : Option Project :=
  match projects.find? (fun p => p.id == query) with
  | some p => some p
  | none => projects.find? (fun p => jsIncludes (jsLower p.title) (jsLower query))

/-- The C5 scenario after the first two steps: fresh session, enter `ls`
then `help`, then press history-previous twice. -/
def recallAfterPrevPrev : TermState :=
  handleKey false (handleKey false
    (enterLine false (enterLine false initialState "ls") "help") .arrowUp) .arrowUp

/-- The full C5 scenario: previous twice, then next once. -/
def recallAfterPrevPrevNext : TermState :=
  handleKey false recallAfterPrevPrev .arrowDown

/-- The projects an output displays: the payload of a project list, and
nothing for messages. -/
def emittedProjects : Output → List Project
  | .projectList _ ps => ps
  | _ => []

/-!
Helper lemmas and the claim theorems.
-/

theorem char_toNat_ofNat_valid {n : Nat} (h : n.isValidChar) :
    (Char.ofNat n).toNat = n := by
  simp only [Char.ofNat, h, dite_true, Char.ofNatAux, Char.toNat, UInt32.toNat]
  simp

theorem toLower_toUpper (c : Char) : Char.toLower (Char.toUpper c) = Char.toLower c := by
  unfold Char.toUpper Char.toLower
  by_cases h : c.toNat ≥ 97 ∧ c.toNat ≤ 122
  · rw [if_pos h]
    have hval : (c.toNat - 32).isValidChar := by
      unfold Nat.isValidChar
      left; omega
    have ht : (Char.ofNat (c.toNat - 32)).toNat = c.toNat - 32 :=
      char_toNat_ofNat_valid hval
    rw [ht]
    have h1 : (c.toNat - 32 ≥ 65 ∧ c.toNat - 32 ≤ 90) := by omega
    rw [if_pos h1, if_neg (by omega)]
    have : c.toNat - 32 + 32 = c.toNat := by omega
    rw [this, Char.ofNat_toNat]
  · rw [if_neg h]

theorem toLower_toLower (c : Char) : Char.toLower (Char.toLower c) = Char.toLower c := by
  unfold Char.toLower
  by_cases h : c.toNat ≥ 65 ∧ c.toNat ≤ 90
  · rw [if_pos h]
    have hval : (c.toNat + 32).isValidChar := by
      unfold Nat.isValidChar
      left; omega
    have ht : (Char.ofNat (c.toNat + 32)).toNat = c.toNat + 32 :=
      char_toNat_ofNat_valid hval
    rw [ht, if_neg (by omega)]
  · rw [if_neg h, if_neg h]

theorem find?_or_left_false {α : Type} (a b : α → Bool) (l : List α)
    (h : ∀ x ∈ l, a x = false) :
    l.find? (fun x => a x || b x) = l.find? b := by
  induction l with
  | nil => rfl
  | cons hd tl ih =>
    have ha : a hd = false := h hd (by simp)
    rw [List.find?_cons, List.find?_cons]
    simp only [ha, Bool.false_or]
    cases hb : b hd
    · exact ih (fun x hx => h x (by simp [hx]))
    · rfl

theorem jsLower_capFirst (s : String) : jsLower (capFirst s) = jsLower s := by
  unfold jsLower capFirst
  cases hd : s.data with
  | nil => rfl
  | cons c rest =>
    show String.mk ((Char.toUpper c :: rest.map jsLowerChar).map jsLowerChar) =
      String.mk ((c :: rest).map jsLowerChar)
    simp only [List.map_cons, List.map_map]
    rw [show jsLowerChar (Char.toUpper c) = jsLowerChar c from toLower_toUpper c]
    have hmm : List.map (jsLowerChar ∘ jsLowerChar) rest = List.map jsLowerChar rest :=
      List.map_congr_left (fun a _ => toLower_toLower a)
    rw [hmm]

/-- C1: for every catalog, query, domain set and type set, the filter engine
returns exactly the projects satisfying the conjunction of the three
predicates, and the result is a sublist of the catalog (original order
preserved, not re-sorted). -/
theorem filter_engine_conjunction_and_order (catalog : List Project)
    (query : String) (domains types : List String) :
    filterEngine catalog query domains types =
      catalog.filter (specFilterPred query domains types) ∧
    (filterEngine catalog query domains types).Sublist catalog := by
  refine ⟨List.filter_congr ?_, List.filter_sublist _⟩
  intro p _
  simp only [projectPred, specFilterPred, matchesQuery]
  cases hq : (query == "") <;> cases hd : domains.isEmpty <;> cases ht : types.isEmpty <;>
    simp

/-- C2: filtering with the empty query and empty domain / type sets returns
the catalog itself, unchanged and in order. -/
theorem filter_empty_returns_catalog (catalog : List Project) :
    filterEngine catalog "" [] [] = catalog := by
  unfold filterEngine
  apply List.filter_eq_self.mpr
  intro p _
  simp [projectPred]

/-- C3: for every argument string, `findProject` (used by both `cat` and
`open`) resolves exactly as the two-stage description says: an exact id
match anywhere in the catalog wins, and only when no id matches is the
first case-insensitive title-substring match returned. -/
theorem findProject_two_stage_resolution (query : String) :
    findProject query = resolveStagedSpec query := by
  unfold findProject resolveStagedSpec
  cases h : projects.find? (fun p => p.id == query) with
  | none =>
    apply find?_or_left_false
    intro p hp
    have := List.find?_eq_none.mp h p hp
    simpa using this
  | some p =>
    have hmem := List.mem_of_find?_eq_some h
    have hid := List.find?_some h
    have hq : query = p.id := (eq_of_beq hid).symm
    subst hq
    fin_cases hmem <;> decide

/-- C4: when the `open` command's argument does not resolve, an error entry
is appended and the navigation callback is never invoked; when it resolves
and a navigation callback is provided, the callback is invoked exactly once
with the resolved project's id (and a confirmation entry is appended). -/
theorem open_command_navigation :
    (∀ (hasNav : Bool) (h : List HistEntry) (input : String),
      jsTrim input ≠ "" →
      jsLower ((splitOnSpace (jsTrim input)).headD "") = "open" →
      (splitOnSpace (jsTrim input)).tail.headD "" ≠ "" →
      findProject ((splitOnSpace (jsTrim input)).tail.headD "") = none →
      (executeCommand hasNav h input).navCalls = [] ∧
      (executeCommand hasNav h input).history =
        h ++ [⟨jsTrim input, Output.errorText "Project not found"⟩]) ∧
    (∀ (h : List HistEntry) (input : String) (p : Project),
      jsTrim input ≠ "" →
      jsLower ((splitOnSpace (jsTrim input)).headD "") = "open" →
      (splitOnSpace (jsTrim input)).tail.headD "" ≠ "" →
      findProject ((splitOnSpace (jsTrim input)).tail.headD "") = some p →
      (executeCommand true h input).navCalls = [p.id] ∧
      (executeCommand true h input).history =
        h ++ [⟨jsTrim input, Output.openingMsg p.title⟩]) := by
  constructor
  · intro hasNav h input h1 h2 h3 h4
    have e1 : (jsTrim input == "") = false := by simpa using h1
    simp only [List.headD_eq_head?_getD, List.head?_tail] at h2 h3 h4
    simp [executeCommand, e1, h2, h3, h4]
  · intro h input p h1 h2 h3 h4
    have e1 : (jsTrim input == "") = false := by simpa using h1
    simp only [List.headD_eq_head?_getD, List.head?_tail] at h2 h3 h4
    simp [executeCommand, e1, h2, h3, h4]

/-- Witness for C4: `open nonexistent-id` appends the error entry and makes
no navigation call; `open lock-and-key` navigates exactly once to
`"lock-and-key"`. -/
theorem open_command_navigation_witness :
    ((executeCommand true [] "open nonexistent-id").navCalls = [] ∧
     (executeCommand true [] "open nonexistent-id").history =
       [⟨"open nonexistent-id", Output.errorText "Project not found"⟩]) ∧
    (executeCommand true [] "open lock-and-key").navCalls = ["lock-and-key"] := by
  constructor
  · have := open_command_navigation.1 true [] "open nonexistent-id"
      (by decide) (by decide) (by decide) (by decide)
    simpa using this
  · have := open_command_navigation.2 [] "open lock-and-key" lockAndKey
      (by decide) (by decide) (by decide) (by decide)
    simpa using this.1

/-- C5 counterexample: in the claimed scenario the input buffer does NOT
end up equal to "ls". -/
theorem history_recall_counterexample :
    recallAfterPrevPrevNext.currentInput ≠ "ls" := by decide

/-- C5 amended: previous twice recalls "help" then "ls"; pressing next once
then moves the cursor back onto the newest entry and recalls its text, so
the buffer ends up equal to "help" (not "ls"). -/
theorem history_recall_next_recalls_newest :
    recallAfterPrevPrev.currentInput = "ls" ∧
    recallAfterPrevPrevNext.currentInput = "help" := by decide

/-- C6 counterexample: inputs that differ only in the amount (two spaces) or
kind (tab) of whitespace between tokens do not produce the same behavior. -/
theorem tokenize_whitespace_counterexample :
    ((executeCommand false [] "cat lock-and-key").history.map (fun e => e.output) ≠
      (executeCommand false [] "cat  lock-and-key").history.map (fun e => e.output)) ∧
    ((executeCommand false [] "cat lock-and-key").history.map (fun e => e.output) ≠
      (executeCommand false [] "cat\tlock-and-key").history.map (fun e => e.output)) := by
  decide

/-- C6 amended: tokenization splits the trimmed input on single space
characters only — consecutive spaces yield an empty first argument (usage
error) and a tab is not a separator (the whole line becomes an unknown
command name); the first token is still compared case-insensitively. -/
theorem tokenize_single_space_semantics :
    (executeCommand false [] "cat lock-and-key").history.map (fun e => e.output) =
      [Output.projectDetails lockAndKey] ∧
    (executeCommand false [] "CAT lock-and-key").history.map (fun e => e.output) =
      [Output.projectDetails lockAndKey] ∧
    (executeCommand false [] "cat  lock-and-key").history.map (fun e => e.output) =
      [Output.errorText "Usage: cat <project-id>"] ∧
    (executeCommand false [] "cat\tlock-and-key").history.map (fun e => e.output) =
      [Output.errorText
        "Command not found: cat\tlock-and-key. Type \x27help\x27 for available commands."] := by
  decide

/-- C7: `filter security` produces the same output as `filter Security`,
and in general the `filter` command with token `a` emits exactly the
projects whose domain equals `a` up to case. -/
theorem filter_domain_case_insensitive :
    filterCmdExecute ["security"] = filterCmdExecute ["Security"] ∧
    (∀ a : String, a ≠ "" →
      emittedProjects (filterCmdExecute [a]) =
        projects.filter (fun p => jsLower p.domain == jsLower a)) := by
  constructor
  · decide
  · intro a ha
    have e : (a == "") = false := by simpa using ha
    simp only [filterCmdExecute, List.headD_cons, e, Bool.false_eq_true, if_false,
      jsLower_capFirst]
    cases hf : (projects.filter (fun p => jsLower p.domain == jsLower a)).isEmpty with
    | true =>
      simp only [hf, if_true]
      rw [List.isEmpty_iff.mp hf]
      rfl
    | false => simp [hf, emittedProjects]

/-- Witness for C7 at the lowercase token `"security"`. -/
theorem filter_domain_case_insensitive_witness :
    ("security" : String) ≠ "" ∧
    emittedProjects (filterCmdExecute ["security"]) =
      projects.filter (fun p => jsLower p.domain == jsLower "security") :=
  ⟨by decide, filter_domain_case_insensitive.2 "security" (by decide)⟩

/-- C8: `clear` empties the history and appends nothing (and triggers no
callback); a `help` executed on the resulting history leaves history of
length exactly 1. -/
theorem clear_then_help_history (hasNav hasNav2 : Bool) (h : List HistEntry) :
    executeCommand hasNav h "clear" = ⟨[], [], false⟩ ∧
    (executeCommand hasNav2 (executeCommand hasNav h "clear").history "help").history =
      [⟨"help", Output.helpText⟩] := by
  constructor <;> rfl

/-- C10: an input that is empty or all whitespace is a complete no-op: the
history is unchanged, no entry is appended, and no callback is invoked. -/
theorem blank_input_noop (hasNav : Bool) (h : List HistEntry) (input : String)
    (hws : input.data.all jsWhitespaceChar = true) :
    executeCommand hasNav h input = ⟨h, [], false⟩ := by
  have h1 : input.data.dropWhile jsWhitespaceChar = [] :=
    List.dropWhile_eq_nil_iff.mpr (fun x hx => (List.all_eq_true.mp hws) x hx)
  have ht : jsTrim input = "" := by
    simp [jsTrim, trimL, h1]
  simp [executeCommand, ht]

/-- Witness for C10 at the all-whitespace input `" \t "`. -/
theorem blank_input_noop_witness :
    executeCommand false [⟨"welcome", Output.welcome⟩] " \t " =
      ⟨[⟨"welcome", Output.welcome⟩], [], false⟩ :=
  blank_input_noop false [⟨"welcome", Output.welcome⟩] " \t " (by decide)

theorem runCommand_eq_lookup (cmd : String) (args : List String) :
    runCommand cmd args =
      (match commandsLookup cmd with
       | .ownHandler f => some (f args)
       | .inheritedMember => none
       | .undefinedValue => none) := by
  unfold runCommand commandsLookup
  split_ifs <;> rfl

theorem commandsLookup_inherited (cmd : String)
    (hx : commandsLookup cmd = .inheritedMember) :
    cmd = "constructor" ∨ cmd = "__proto__" := by
  unfold commandsLookup at hx
  split_ifs at hx
  all_goals simp_all

/-- Helper for C9: on every input whose lowercased command token is not an
inherited `Object.prototype` member name, the source never throws and the
fallible model agrees with the total `executeCommand`. -/
theorem executeCommandJS_agrees (hasNav : Bool) (h : List HistEntry) (input : String)
    (hc : jsLower ((splitOnSpace (jsTrim input)).headD "") ≠ "constructor")
    (hp : jsLower ((splitOnSpace (jsTrim input)).headD "") ≠ "__proto__") :
    executeCommandJS hasNav h input = .ok (executeCommand hasNav h input) := by
  simp only [executeCommandJS, executeCommand, runCommand_eq_lookup]
  split_ifs
  all_goals try rfl
  all_goals
    try (cases hfp : findProject ((splitOnSpace (jsTrim input)).tail.headD "") <;> rfl)
  cases hcl : commandsLookup (jsLower ((splitOnSpace (jsTrim input)).headD "")) with
  | ownHandler f =>
    dsimp only
    cases hfa : f (splitOnSpace (jsTrim input)).tail <;> rfl
  | inheritedMember =>
    rcases commandsLookup_inherited _ hcl with hx | hx
    · exact absurd hx hc
    · exact absurd hx hp
  | undefinedValue => rfl

/-- C9 (code bug): the claim (and spec sections 4.2 and 7) says no command
raises a fatal error and every failure path appends a rendered message, but
the dispatch `COMMANDS[cmd]` walks the JS prototype chain: entering
`constructor` or `__proto__` yields a truthy inherited member, so the real
interpreter throws a `TypeError` from `commandHandler.execute(args)` and
appends nothing.  Any genuinely absent name still produces the
Command-not-found entry naming the token. -/
theorem dispatch_prototype_chain_throws :
    executeCommandJS false [] "constructor" = .error "TypeError" ∧
    executeCommandJS false [] "__proto__" = .error "TypeError" ∧
    executeCommandJS false [] "foobar" =
      .ok ⟨[⟨"foobar", .errorText
        "Command not found: foobar. Type \x27help\x27 for available commands."⟩],
        [], false⟩ :=
  ⟨rfl, rfl, rfl⟩
